import Mathlib

/-!
Verification development for the single-file blog scraper (src/scraper.py).

The scraper is embedded shallowly:

* HTML pages are modelled as a `Doc`: an oracle view of a parsed BeautifulSoup
  document, giving for each CSS selector string the list of matching `Node`s
  (in document order), plus the list of href values of all anchors carrying an
  href attribute (the result of find_all with href required).
* `urllib.parse.urljoin` / `urlparse(...).netloc` are modelled executably by
  `pyUrljoin` / `pyNetloc`, following the CPython algorithm for URLs that do
  not use the rarely seen ;parameters component (none of the scraper logic or
  the inputs considered here produce one) and ASCII scheme names.
* The three re.search patterns of the link fallback are modelled by
  `rePostMatch`, `reDateMatch` and `reBlogMatch`; the patterns are anchored at
  the end by a dollar, which in Python also matches just before one trailing
  newline, and this is reproduced.
* HTTP fetching (requests.get wrapped by fetch_page) is an oracle parameter
  `fetch : String -> Option String`: none models a raised RequestException,
  some t models a 2xx response with body t. Parsing is an oracle
  `parse : String -> Doc` standing for BeautifulSoup.
-/

/-! ### Python string primitives -/

/-- Model of Python str.startswith for a literal argument. -/
def strStarts (s p : String) : Bool := p.data.isPrefixOf s.data

/-- The characters stripped by Python str.strip() (ASCII part). -/
def pyWhitespace (c : Char) : Bool :=
  c == ' ' || c == '\t' || c == '\n' || c == '\r' || c == '\x0b' || c == '\x0c'

/-- Model of Python str.strip(): drop whitespace from both ends. -/
def pyStrip (s : String) : String :=
  String.mk (((s.data.dropWhile pyWhitespace).reverse.dropWhile pyWhitespace).reverse)

/-- Model of Python str.split(sep) for a one-character separator:
splitting the empty string yields one empty field. -/
def splitOnChar (c : Char) : List Char → List (List Char)
  | [] => [[]]
  | x :: xs =>
    let r := splitOnChar c xs
    if x = c then [] :: r
    else
      match r with
      | h :: t => (x :: h) :: t
      | [] => [[x]]

/-! ### Model of urllib.parse (restricted as documented above) -/

/-- Characters allowed in a URL scheme after the first letter. -/
def schemeChar (c : Char) : Bool :=
  c.isAlpha || c.isDigit || c == '+' || c == '-' || c == '.'

/-- The five components returned by urlsplit. -/
structure UrlParts where
  scheme : String
  netloc : String
  path : String
  query : String
  fragment : String
deriving DecidableEq

/-- Model of urllib.parse.urlsplit with a default scheme: detect a scheme
(letter followed by scheme characters, before the first colon), then an
authority after a double slash, then split off the fragment and the query. -/
def pySplitUrl (default_scheme url : String) : UrlParts :=
  let cs := url.data
  let i := cs.findIdx (fun c => c == ':')
  let hasScheme :=
    decide (0 < i) && decide (i < cs.length) &&
      (cs.take i).all schemeChar && (cs.headD ' ').isAlpha
  let scheme := if hasScheme then String.mk ((cs.take i).map Char.toLower) else default_scheme
  let rest := if hasScheme then cs.drop (i + 1) else cs
  let hasNet := match rest with | '/' :: '/' :: _ => true | _ => false
  let afterSlashes := rest.drop 2
  let netlocChars :=
    if hasNet then afterSlashes.takeWhile (fun c => !(c == '/' || c == '?' || c == '#')) else []
  let rest2 := if hasNet then afterSlashes.drop netlocChars.length else rest
  let beforeFrag := rest2.takeWhile (fun c => c != '#')
  let fragment := (rest2.dropWhile (fun c => c != '#')).drop 1
  let path := beforeFrag.takeWhile (fun c => c != '?')
  let query := (beforeFrag.dropWhile (fun c => c != '?')).drop 1
  ⟨scheme, String.mk netlocChars, String.mk path, String.mk query, String.mk fragment⟩

/-- Model of urllib.parse.urlunsplit. -/
def pyUnsplitUrl (u : UrlParts) : String :=
  let url0 := u.path
  let url1 :=
    if (u.netloc != "") || strStarts url0 "//" then
      "//" ++ u.netloc ++ (if (url0 != "") && !(strStarts url0 "/") then "/" ++ url0 else url0)
    else url0
  let url2 := if u.scheme != "" then u.scheme ++ ":" ++ url1 else url1
  let url3 := if u.query != "" then url2 ++ "?" ++ u.query else url2
  if u.fragment != "" then url3 ++ "#" ++ u.fragment else url3

/-- The schemes for which urljoin performs relative resolution (uses_relative
in urllib.parse); each of them is also in uses_netloc, which the model uses
to skip the vacuous uses_netloc test. -/
def usesRelative : List String :=
  ["", "ftp", "http", "gopher", "nntp", "imap", "wais", "file", "https", "shttp",
   "mms", "prospero", "rtsp", "rtspu", "sftp", "svn", "svn+ssh", "ws", "wss"]

/-- Merge the middle of a segment list as CPython urljoin does: the slice
between the first and the last element is cleared of empty segments. -/
def mergeSegments (all : List (List Char)) : List (List Char) :=
  match all with
  | [] => []
  | [x] => [x]
  | x :: rest =>
    x :: ((rest.dropLast.filter (fun seg => !seg.isEmpty)) ++ [rest.getLastD []])

/-- Resolve dot segments as CPython urljoin does. -/
def resolveSegments (segments : List (List Char)) : List (List Char) :=
  let resolved := segments.foldl
    (fun acc seg =>
      if seg = ['.', '.'] then acc.dropLast
      else if seg = ['.'] then acc
      else acc ++ [seg]) []
  if segments.getLastD [] = ['.'] || segments.getLastD [] = ['.', '.'] then
    resolved ++ [[]]
  else resolved

/-- Model of urllib.parse.urljoin, following the CPython implementation
(without the ;parameters component, as documented at the top of the file). -/
def pyUrljoin (base url : String) : String :=
  if base = "" then url
  else if url = "" then base
  else
    let b := pySplitUrl "" base
    let r := pySplitUrl b.scheme url
    if r.scheme ≠ b.scheme ∨ r.scheme ∉ usesRelative then url
    else if r.netloc ≠ "" then pyUnsplitUrl r
    else
      let netloc := b.netloc
      if r.path = "" then
        let query := if r.query = "" then b.query else r.query
        pyUnsplitUrl ⟨r.scheme, netloc, b.path, query, r.fragment⟩
      else
        let baseParts0 := splitOnChar '/' b.path.data
        let baseParts :=
          if baseParts0.getLastD [] ≠ [] then baseParts0.dropLast else baseParts0
        let segs := splitOnChar '/' r.path.data
        let segments :=
          if strStarts r.path "/" then segs else mergeSegments (baseParts ++ segs)
        let resolved := resolveSegments segments
        let path0 := String.mk (List.intercalate ['/'] resolved)
        let path := if path0 = "" then "/" else path0
        pyUnsplitUrl ⟨r.scheme, netloc, path, r.query, r.fragment⟩

/-- Model of urlparse(url).netloc, as used for the same-domain filter. -/
def pyNetloc (url : String) : String := (pySplitUrl "" url).netloc

/-! ### The three fallback regular expressions

r1 = /(post|blog|article|entry)/[a-zA-Z0-9-]+/?$
r2 = /dddd/dd/dd/[a-zA-Z0-9-]+/?$   (d a digit)
r3 = /blog/[a-zA-Z0-9-]+/?$

All three are suffix patterns: a final slug of one or more
alphanumeric/hyphen characters, an optional trailing slash, and a dollar that
matches at the end of the string or just before one final newline. They are
decided by scanning the reversed character list. -/

/-- The slug character class [a-zA-Z0-9-]. -/
def slugChar (c : Char) : Bool := c.isAlpha || c.isDigit || c == '-'

/-- On the reversed string, step over one final newline (Python dollar). -/
def dropFinalNewline (r : List Char) : List Char :=
  match r with
  | '\n' :: t => t
  | _ => r

/-- On the reversed string, step over the optional trailing slash. -/
def dropOptSlash (r : List Char) : List Char :=
  match r with
  | '/' :: t => t
  | _ => r

/-- Does the reversed remainder begin with "/word/" read backwards,
i.e. does the string end (before the slug) with slash, word, slash? -/
def wordBeforeSlug (w : String) (rest : List Char) : Bool :=
  List.isPrefixOf ('/' :: (w.data.reverse ++ ['/'])) rest

/-- Shared suffix matcher for the word-based patterns r1 and r3. -/
def slugTailMatch (s : String) (words : List String) : Bool :=
  let r := dropOptSlash (dropFinalNewline s.data.reverse)
  let slug := r.takeWhile slugChar
  let rest := r.drop slug.length
  !slug.isEmpty && words.any (fun w => wordBeforeSlug w rest)

/-- Model of re.search of the first fallback pattern. -/
def rePostMatch (s : String) : Bool :=
  slugTailMatch s ["post", "blog", "article", "entry"]

/-- Model of re.search of the third fallback pattern. -/
def reBlogMatch (s : String) : Bool := slugTailMatch s ["blog"]

/-- Model of re.search of the date pattern /dddd/dd/dd/slug/?$ . -/
def reDateMatch (s : String) : Bool :=
  let r := dropOptSlash (dropFinalNewline s.data.reverse)
  let slug := r.takeWhile slugChar
  let rest := r.drop slug.length
  !slug.isEmpty &&
    (match rest with
     | '/' :: a :: b :: '/' :: c :: d :: '/' :: e :: f :: g :: h :: '/' :: _ =>
       a.isDigit && b.isDigit && c.isDigit && d.isDigit &&
         e.isDigit && f.isDigit && g.isDigit && h.isDigit
     | _ => false)

/-! ### Parsed HTML: nodes and the document oracle -/

mutual

/-- A parsed HTML node: a text node, or an element with a tag name, an
attribute list and children (a BeautifulSoup Tag or NavigableString). -/
inductive Node where
  | text (s : String)
  | elem (tag : String) (attrs : List (String × String)) (children : NodeList)

/-- Children lists, as a mutual inductive so that the tree functions are
structurally recursive (and hence evaluate inside the kernel). -/
inductive NodeList where
  | nil
  | cons (head : Node) (tail : NodeList)

end

/-- Build a children list from a plain list (fixture convenience). -/
def nodeListOf : List Node → NodeList
  | [] => NodeList.nil
  | n :: ns => NodeList.cons n (nodeListOf ns)

/-- Model of Tag.get(key): the first binding of the attribute. -/
def nodeAttr : Node → String → Option String
  | Node.text _, _ => none
  | Node.elem _ attrs _, k => (attrs.find? (fun p => p.1 == k)).map (fun p => p.2)

mutual

/-- Model of Tag.get_text(): concatenation of all descendant text, in
document order. -/
def getTextNode : Node → String
  | Node.text s => s
  | Node.elem _ _ cs => getTextListText cs

def getTextListText : NodeList → String
  | NodeList.nil => ""
  | NodeList.cons c cs => getTextNode c ++ getTextListText cs

end

mutual

/-- Model of the extractor content cleanup: select("script, style") on the
container followed by decompose() removes every descendant script or style
element (the container itself is kept). -/
def stripScriptsNode : Node → Node
  | Node.text s => Node.text s
  | Node.elem t a cs => Node.elem t a (stripScriptsList cs)

def stripScriptsList : NodeList → NodeList
  | NodeList.nil => NodeList.nil
  | NodeList.cons (Node.text s) cs => NodeList.cons (Node.text s) (stripScriptsList cs)
  | NodeList.cons (Node.elem t a cs2) cs =>
    if t = "script" ∨ t = "style" then stripScriptsList cs
    else NodeList.cons (Node.elem t a (stripScriptsList cs2)) (stripScriptsList cs)

end

/-- Model of the attribute serialization inside str(tag). -/
def serializeAttrs : List (String × String) → String
  | [] => ""
  | (k, v) :: rest => " " ++ k ++ "=\"" ++ v ++ "\"" ++ serializeAttrs rest

mutual

/-- Model of str(tag): markup serialization of a node. -/
def serializeNode : Node → String
  | Node.text s => s
  | Node.elem t a cs =>
    "<" ++ t ++ serializeAttrs a ++ ">" ++ serializeList cs ++ "</" ++ t ++ ">"

def serializeList : NodeList → String
  | NodeList.nil => ""
  | NodeList.cons c cs => serializeNode c ++ serializeList cs

end

/-- Oracle view of one parsed page (a BeautifulSoup object): the result of
soup.select for each selector string (document order), of soup.select_one,
and the href values of soup.find_all("a", href=True), in document order.
find_all with href required returns exactly the anchors carrying the
attribute, so only the href strings are kept. -/
structure Doc where
  select : String → List Node
  selectOne : String → Option Node
  anchors : List String

/-! ### find_blog_links (src/scraper.py lines 51-88) -/

/-- The fixed post-link selector list of find_blog_links. -/
def blog_selectors : List String :=
  ["article a", ".post a", ".blog-post a", ".entry a",
   ".post-title a", ".blog-entry a", ".post-link", ".blog-title a",
   "a.post-link", "a.read-more", "a.more-link", "h2 a", "h1 a", "h3 a"]

/-- The body of the selector-phase inner loop: from one matched anchor,
the resolved same-domain absolute URL, unless the href is missing, empty,
or starts with a fragment or javascript marker. -/
def linkOfAnchor (base : String) (n : Node) : Option String :=
  match nodeAttr n "href" with
  | some href =>
    if (href != "") && !(strStarts href "#") && !(strStarts href "javascript:") then
      let absolute_url := pyUrljoin base href
      if pyNetloc absolute_url = pyNetloc base then some absolute_url else none
    else none
  | none => none

/-- One selector step of the first phase of find_blog_links: if the selector
matched anything, append every accepted link. -/
def blogStep (base : String) (doc : Doc) (links : List String) (selector : String) :
    List String :=
  let found_links := doc.select selector
  if found_links.isEmpty then links
  else links ++ found_links.filterMap (linkOfAnchor base)

/-- The selector phase of find_blog_links: the loop over all selectors. -/
def blogSelectorPhase (base : String) (doc : Doc) : List String :=
  blog_selectors.foldl (blogStep base doc) []

/-- The regex fallback of find_blog_links: every anchor with an href whose
resolved URL is same-domain and matches one of the three patterns; no
fragment or javascript prefix test is performed here. -/
def blogFallback (base : String) (doc : Doc) : List String :=
  doc.anchors.filterMap (fun href =>
    let absolute_url := pyUrljoin base href
    if (pyNetloc absolute_url == pyNetloc base) &&
        (rePostMatch absolute_url || reDateMatch absolute_url || reBlogMatch absolute_url)
    then some absolute_url else none)

/-- find_blog_links: selector phase, regex fallback when the phase produced
no link, then list(set(...)). The set conversion is modelled by List.dedup;
the iteration order of a Python set is arbitrary, and no claim below depends
on the order, only on membership, emptiness and duplicate-freedom. -/
def find_blog_links (base : String) (doc : Doc) : List String :=
  let links := blogSelectorPhase base doc
  let links2 := if links.isEmpty then blogFallback base doc else links
  links2.dedup

/-! ### find_pagination_links (src/scraper.py lines 90-110) -/

/-- The fixed pagination selector list. -/
def pagination_selectors : List String :=
  [".pagination a", ".nav-links a", ".page-numbers",
   "a.page-link", ".pager a", ".pages a",
   "a[rel=\x27next\x27]", "a.next"]

/-- The pagination anchor test: only missing, empty and fragment-prefixed
hrefs are rejected; there is no javascript prefix test here. -/
def paginationLinkOfAnchor (base : String) (n : Node) : Option String :=
  match nodeAttr n "href" with
  | some href =>
    if (href != "") && !(strStarts href "#") then
      let absolute_url := pyUrljoin base href
      if pyNetloc absolute_url = pyNetloc base then some absolute_url else none
    else none
  | none => none

/-- One selector step of find_pagination_links (no emptiness guard in the
source: the loop body runs over whatever the selector matched). -/
def paginationStep (base : String) (doc : Doc) (acc : List String) (selector : String) :
    List String :=
  acc ++ (doc.select selector).filterMap (paginationLinkOfAnchor base)

/-- find_pagination_links: union over all selectors, then list(set(...)). -/
def find_pagination_links (base : String) (doc : Doc) : List String :=
  (pagination_selectors.foldl (paginationStep base doc) []).dedup

/-! ### extract_blog_content (src/scraper.py lines 112-200) -/

/-- The extracted record (the data dict of extract_blog_content). -/
structure PostData where
  url : String
  title : String
  date : String
  author : String
  content : String
  raw_html : String
  categories : List String
deriving DecidableEq

def title_selectors : List String :=
  ["h1", "h1.post-title", "h1.entry-title", ".post-title", ".entry-title", "article h1"]

def date_selectors : List String :=
  [".post-date", ".entry-date", ".published", "time",
   ".date", "meta[property=\x27article:published_time\x27]",
   "span.date", ".post-meta time"]

def author_selectors : List String :=
  [".author", ".entry-author", "a.author", ".post-author",
   "meta[name=\x27author\x27]", ".author-name", ".byline"]

def category_selectors : List String :=
  [".category", ".categories", ".tags", ".post-tags",
   ".entry-tags", ".post-categories", "a[rel=\x27category\x27]"]

def content_selectors : List String :=
  ["article", ".post-content", ".entry-content",
   ".content", ".post", ".blog-post", ".article-content"]

/-- The per-field probing loop: the first selector for which select_one
finds an element, together with that selector (the source compares the
selector string to pick the meta special cases). -/
def selectFirst (doc : Doc) : List String → Option (String × Node)
  | [] => none
  | s :: rest =>
    match doc.selectOne s with
    | some e => some (s, e)
    | none => selectFirst doc rest

/-- The categories probing loop: the full match list of the first selector
that matches at least one element. -/
def selectMany (doc : Doc) : List String → Option (List Node)
  | [] => none
  | s :: rest =>
    let elems := doc.select s
    if elems.isEmpty then selectMany doc rest else some elems

/-- extract_blog_content: field-wise first-success probing; the two meta
selectors read the content attribute; categories collect every match of the
chosen selector; the content container is cleaned of script/style elements
before taking its text and markup. -/
def extract_blog_content (doc : Doc) (url : String) : PostData :=
  let title :=
    match selectFirst doc title_selectors with
    | some (_, e) => pyStrip (getTextNode e)
    | none => ""
  let date :=
    match selectFirst doc date_selectors with
    | some (s, e) =>
      if s = "meta[property=\x27article:published_time\x27]" then
        (nodeAttr e "content").getD ""
      else pyStrip (getTextNode e)
    | none => ""
  let author :=
    match selectFirst doc author_selectors with
    | some (s, e) =>
      if s = "meta[name=\x27author\x27]" then (nodeAttr e "content").getD ""
      else pyStrip (getTextNode e)
    | none => ""
  let categories :=
    match selectMany doc category_selectors with
    | some elems => elems.map (fun cat => pyStrip (getTextNode cat))
    | none => []
  let contentPair :=
    match selectFirst doc content_selectors with
    | some (_, e) =>
      let cleaned := stripScriptsNode e
      (pyStrip (getTextNode cleaned), serializeNode cleaned)
    | none => ("", "")
  { url := url, title := title, date := date, author := author,
    content := contentPair.1, raw_html := contentPair.2, categories := categories }

/-! ### save_post filename derivation (src/scraper.py lines 202-216) -/

/-- The character class kept by re.sub(r..., underscore, s): word characters
and the hyphen (ASCII model of the word class). -/
def pyWordChar (c : Char) : Bool := c.isAlphanum || c == '_'

/-- Model of re.sub applied in save_post: every character outside the
word/hyphen class becomes an underscore. -/
def subNonWord (s : String) : String :=
  String.mk (s.data.map (fun c => if pyWordChar c || c == '-' then c else '_'))

/-- Model of url.split("/")[-1]. -/
def lastUrlSegment (url : String) : String :=
  String.mk ((splitOnChar '/' url.data).getLastD [])

/-- The filename computed by save_post: base from the title, or from the
final URL path segment when the title is empty (with the literal fallback
"post" when that normalizes to the empty string), truncated to 50
characters, with ".json" appended. -/
def save_filename (title url : String) : String :=
  let filename :=
    if title = "" then
      (let f := subNonWord (lastUrlSegment url); if f = "" then "post" else f)
    else subNonWord title
  String.mk (filename.data.take 50) ++ ".json"

/-! ### scrape (src/scraper.py lines 218-272) -/

/-- The truthiness test applied to every fetch_page result (if not
html_content / if page_html): a missing page and an empty body are both
falsy. -/
def truthyHtml : Option String → Option String
  | none => none
  | some s => if s = "" then none else some s

/-- The pagination frontier loop of scrape. Arguments after the oracles:
the accumulated blog links, the pagination queue, and the visited-page
counter pages_scraped. Returns the accumulated blog links, the final
counter, and the list of pagination URLs for which a fetch was attempted,
in order. The loop runs while the queue is non-empty and the counter is
below max_pages; a failed or empty fetch only skips the merge step. -/
def scrapeLoop (fetch : String → Option String) (parse : String → Doc)
    (base : String) (max_pages : Nat) :
    List String → List String → Nat → List String × Nat × List String
  | blog_links, [], pages_scraped => (blog_links, pages_scraped, [])
  | blog_links, next_page_url :: rest, pages_scraped =>
    if h : pages_scraped < max_pages then
      let step :=
        match truthyHtml (fetch next_page_url) with
        | some page_html =>
          let doc := parse page_html
          (blog_links ++ find_blog_links base doc,
           rest ++ (find_pagination_links base doc).filter (fun l => decide (l ∉ rest)))
        | none => (blog_links, rest)
      let r := scrapeLoop fetch parse base max_pages step.1 step.2 (pages_scraped + 1)
      (r.1, r.2.1, next_page_url :: r.2.2)
    else (blog_links, pages_scraped, [])
termination_by _blog _pag pages => max_pages - pages
decreasing_by simp_wf; omega

/-- The truncation of the accumulated links before extraction:
list(set(blog_links))[:max_posts]. -/
def selectPosts (links : List String) (max_posts : Nat) : List String :=
  links.dedup.take max_posts

/-- The post-scraping loop of scrape: arguments are the scraped_urls set and
the remaining links; results are the saved records in order, the final
scraped_urls, and the post URLs for which a fetch was attempted. A link
already in scraped_urls is skipped before fetching; a failed or empty fetch
saves nothing. -/
def postLoop (fetch : String → Option String) (parse : String → Doc) :
    List String → List String → List PostData × List String × List String
  | scraped_urls, [] => ([], scraped_urls, [])
  | scraped_urls, link :: rest =>
    if link ∈ scraped_urls then postLoop fetch parse scraped_urls rest
    else
      match truthyHtml (fetch link) with
      | some page_html =>
        let post_data := extract_blog_content (parse page_html) link
        let r := postLoop fetch parse (link :: scraped_urls) rest
        (post_data :: r.1, r.2.1, link :: r.2.2)
      | none =>
        let r := postLoop fetch parse scraped_urls rest
        (r.1, r.2.1, link :: r.2.2)

/-- The observable outcome of one scrape run: the records saved (in order)
and the URLs for which a fetch was attempted (seed first). -/
structure ScrapeResult where
  saved : List PostData
  attempts : List String
deriving DecidableEq

/-- scrape: fetch the seed page (aborting on a falsy result), classify its
links, run the frontier loop starting with pages_scraped = 1, truncate the
accumulated set, then fetch/extract/save each remaining post link. -/
def scrape (fetch : String → Option String) (parse : String → Doc)
    (base_url : String) (max_posts max_pages : Nat) : ScrapeResult :=
  match truthyHtml (fetch base_url) with
  | none => ⟨[], [base_url]⟩
  | some html_content =>
    let doc := parse html_content
    let blog_links := find_blog_links base_url doc
    let pagination_links := find_pagination_links base_url doc
    let r := scrapeLoop fetch parse base_url max_pages blog_links pagination_links 1
    let final_links := selectPosts r.1 max_posts
    let p := postLoop fetch parse [] final_links
    ⟨p.1, base_url :: (r.2.2 ++ p.2.2)⟩

/-! ### The filename derivation as the specification words it -/

/-- The filename function exactly as the specification sentence describes
it: normalize the title (or the final URL path segment when the title is
empty), truncate, append the extension — with no other step. This is the
claimed behavior, to be compared with save_filename taken from the
source. -/
def spec_filename (title url : String) : String :=
  let base := if title = "" then subNonWord (lastUrlSegment url) else subNonWord title
  String.mk (base.data.take 50) ++ ".json"

/-! ### Concrete test pages (fixtures used by witnesses and
counterexamples) -/

/-- A page with no selector matches and a single /about anchor. -/
def fxNoLinkDoc : Doc := ⟨fun _ => [], fun _ => none, ["/about"]⟩

/-- A page whose article selector matches one anchor to /blog/a. -/
def fxArticleDoc : Doc :=
  ⟨fun s => if s = "article a" then [Node.elem "a" [("href", "/blog/a")] NodeList.nil] else [],
   fun _ => none, []⟩

/-- A page whose only anchor has a fragment-only href and matches no
selector (a bare anchor outside any of the listed containers). -/
def fxFragmentDoc : Doc := ⟨fun _ => [], fun _ => none, ["#/blog/abc"]⟩

/-- A page whose pagination container holds an anchor with a javascript
href carrying an authority equal to the seed domain. -/
def fxJsPagDoc : Doc :=
  ⟨fun s => if s = ".pagination a"
      then [Node.elem "a" [("href", "javascript://e.com/x")] NodeList.nil] else [],
   fun _ => none, []⟩

def fxPostTitle : Node := Node.elem "h1" [] (nodeListOf [Node.text "Title"])

def fxPostMeta : Node :=
  Node.elem "meta" [("property", "article:published_time"), ("content", "2024-01-01")]
    NodeList.nil

def fxPostDiv (scr : String) : Node :=
  Node.elem "div" [("class", "entry-content")]
    (nodeListOf
      [Node.elem "script" [] (nodeListOf [Node.text scr]),
       Node.elem "p" [] (nodeListOf [Node.text "First paragraph."]),
       Node.elem "p" [] (nodeListOf [Node.text "Second paragraph."])])

/-- The C4 scenario page: an h1 title, a publication-time meta tag matching
no earlier date selector, and an entry-content div holding a script element
(of arbitrary text) and two paragraphs; nothing else matches. -/
def fxPostDoc (scr : String) : Doc :=
  ⟨fun _ => [],
   fun s =>
     if s = "h1" then some fxPostTitle
     else if s = "meta[property=\x27article:published_time\x27]" then some fxPostMeta
     else if s = ".entry-content" then some (fxPostDiv scr) else none,
   []⟩

/-- A page whose first two category selectors match nothing and whose .tags
selector matches three elements. -/
def fxTagsDoc : Doc :=
  ⟨fun s =>
     if s = ".tags" then
       [Node.elem "a" [] (nodeListOf [Node.text " alpha "]),
        Node.elem "a" [] (nodeListOf [Node.text "beta"]),
        Node.elem "a" [] (nodeListOf [Node.text "gamma"])]
     else [],
   fun _ => none, []⟩

/-! ### Lemmas about the selector folds -/

lemma blogSelectorPhase_eq_nil_aux (base : String) (doc : Doc) :
    ∀ (L : List String) (acc : List String), (∀ s ∈ L, doc.select s = []) →
      L.foldl (blogStep base doc) acc = acc := by
  intro L
  induction L with
  | nil => intro acc _; rfl
  | cons a L ih =>
    intro acc h
    rw [List.foldl_cons]
    have ha : doc.select a = [] := h a (List.mem_cons_self a L)
    have hstep : blogStep base doc acc a = acc := by
      simp [blogStep, ha]
    rw [hstep]
    exact ih acc (fun s hs => h s (List.mem_cons_of_mem a hs))

/-- If no post-link selector matches anything, the selector phase is empty. -/
lemma blogSelectorPhase_eq_nil (base : String) (doc : Doc)
    (h : ∀ s ∈ blog_selectors, doc.select s = []) :
    blogSelectorPhase base doc = [] :=
  blogSelectorPhase_eq_nil_aux base doc blog_selectors [] h

lemma foldl_blogStep_mem (base : String) (doc : Doc) (u : String) :
    ∀ (L : List String) (acc : List String),
      (u ∈ L.foldl (blogStep base doc) acc ↔
        u ∈ acc ∨ ∃ s, s ∈ L ∧ u ∈ (doc.select s).filterMap (linkOfAnchor base)) := by
  intro L
  induction L with
  | nil => intro acc; simp
  | cons a L ih =>
    intro acc
    rw [List.foldl_cons, ih]
    by_cases he : (doc.select a).isEmpty
    · have hsel : doc.select a = [] := List.isEmpty_iff.mp he
      simp [blogStep, he, hsel, or_assoc]
    · simp [blogStep, he, List.mem_append, or_assoc]

lemma foldl_paginationStep_mem (base : String) (doc : Doc) (u : String) :
    ∀ (L : List String) (acc : List String),
      (u ∈ L.foldl (paginationStep base doc) acc ↔
        u ∈ acc ∨ ∃ s, s ∈ L ∧ u ∈ (doc.select s).filterMap (paginationLinkOfAnchor base)) := by
  intro L
  induction L with
  | nil => intro acc; simp
  | cons a L ih =>
    intro acc
    rw [List.foldl_cons, ih]
    simp [paginationStep, List.mem_append, or_assoc]

/-- Inversion of the selector-phase anchor test: an accepted link comes from
a present, non-empty href that passes both prefix checks, and is its
resolution against the base URL. -/
lemma linkOfAnchor_eq_some {base : String} {n : Node} {u : String}
    (h : linkOfAnchor base n = some u) :
    ∃ href, nodeAttr n "href" = some href ∧ href ≠ "" ∧ strStarts href "#" = false ∧
      strStarts href "javascript:" = false ∧ u = pyUrljoin base href := by
  simp only [linkOfAnchor] at h
  split at h
  next href heq =>
    split at h
    next hc =>
      split at h
      next hd =>
        obtain ⟨⟨hne, h1⟩, h2⟩ :
            (href ≠ "" ∧ strStarts href "#" = false) ∧ strStarts href "javascript:" = false := by
          simpa [Bool.and_eq_true, Bool.not_eq_true', bne_iff_ne] using hc
        exact ⟨href, heq, hne, h1, h2, ((Option.some.injEq _ _).mp h).symm⟩
      next hd => exact absurd h (by simp)
    next hc => exact absurd h (by simp)
  next heq => exact absurd h (by simp)

/-- Inversion of the pagination anchor test: only the fragment prefix is
checked. -/
lemma paginationLinkOfAnchor_eq_some {base : String} {n : Node} {u : String}
    (h : paginationLinkOfAnchor base n = some u) :
    ∃ href, nodeAttr n "href" = some href ∧ href ≠ "" ∧ strStarts href "#" = false ∧
      u = pyUrljoin base href := by
  simp only [paginationLinkOfAnchor] at h
  split at h
  next href heq =>
    split at h
    next hc =>
      split at h
      next hd =>
        obtain ⟨hne, h1⟩ : href ≠ "" ∧ strStarts href "#" = false := by
          simpa [Bool.and_eq_true, Bool.not_eq_true', bne_iff_ne] using hc
        exact ⟨href, heq, hne, h1, ((Option.some.injEq _ _).mp h).symm⟩
      next hd => exact absurd h (by simp)
    next hc => exact absurd h (by simp)
  next heq => exact absurd h (by simp)

/-! ### Claim C1 -/

/-- Claim C1: on a page where no fixed post-link selector matches any
element and no anchor resolves to a same-domain absolute URL matching one of
the three fallback patterns, find_blog_links returns the empty set; and the
regex fallback is consulted only when the selector phase produced zero
links, otherwise the result is exactly the deduplicated selector-phase
output. -/
theorem claim1_no_match_gives_empty (base : String) (doc : Doc) :
    ((∀ s ∈ blog_selectors, doc.select s = []) →
      (∀ href ∈ doc.anchors,
        ((pyNetloc (pyUrljoin base href) == pyNetloc base) &&
          (rePostMatch (pyUrljoin base href) || reDateMatch (pyUrljoin base href) ||
            reBlogMatch (pyUrljoin base href))) = false) →
      find_blog_links base doc = []) ∧
    (blogSelectorPhase base doc ≠ [] →
      find_blog_links base doc = (blogSelectorPhase base doc).dedup) := by
  constructor
  · intro h1 h2
    have hphase : blogSelectorPhase base doc = [] := blogSelectorPhase_eq_nil base doc h1
    have hfall : blogFallback base doc = [] := by
      apply List.filterMap_eq_nil_iff.mpr
      intro a ha
      simp [blogFallback, h2 a ha]
    simp [find_blog_links, hphase, hfall]
  · intro h
    simp [find_blog_links, List.isEmpty_iff, h]

/-- Witness for C1: a page with no selector matches and one non-matching
anchor yields the empty set, and a page whose selector phase found a link
skips the fallback. -/
theorem claim1_witness :
    find_blog_links "https://e.com/" fxNoLinkDoc = [] ∧
    find_blog_links "https://e.com/" fxArticleDoc =
      (blogSelectorPhase "https://e.com/" fxArticleDoc).dedup := by
  constructor
  · exact (claim1_no_match_gives_empty "https://e.com/" fxNoLinkDoc).1
      (fun s _ => rfl) (by decide)
  · exact (claim1_no_match_gives_empty "https://e.com/" fxArticleDoc).2 (by decide)

/-! ### Claim C2 -/

/-- Counterexample to C2 as stated: the regex fallback of find_blog_links
performs no prefix test, so an anchor whose href starts with the fragment
marker contributes its resolved same-domain URL; and find_pagination_links
never tests the javascript prefix, so an anchor with a javascript href whose
parsed authority equals the seed domain contributes a URL that itself starts
with the script-protocol marker. -/
theorem claim2_counterexample :
    (strStarts "#/blog/abc" "#" = true ∧
      find_blog_links "https://e.com/x" fxFragmentDoc = ["https://e.com/x#/blog/abc"]) ∧
    (strStarts "javascript://e.com/x" "javascript:" = true ∧
      find_pagination_links "https://e.com/" fxJsPagDoc = ["javascript://e.com/x"]) := by
  decide

/-- Claim C2 amended: every URL produced by the selector phase of
find_blog_links comes from an anchor whose href is present, non-empty and
passes both the fragment and the javascript prefix checks; every URL
produced by find_pagination_links comes from an anchor whose href passes the
fragment check (no javascript check is performed there, and the regex
fallback of find_blog_links performs no prefix check at all). -/
theorem claim2_prefix_checks (base : String) (doc : Doc) (u : String) :
    (u ∈ blogSelectorPhase base doc →
      ∃ s, s ∈ blog_selectors ∧ ∃ n, n ∈ doc.select s ∧ ∃ href,
        nodeAttr n "href" = some href ∧ href ≠ "" ∧ strStarts href "#" = false ∧
          strStarts href "javascript:" = false ∧ u = pyUrljoin base href) ∧
    (u ∈ find_pagination_links base doc →
      ∃ s, s ∈ pagination_selectors ∧ ∃ n, n ∈ doc.select s ∧ ∃ href,
        nodeAttr n "href" = some href ∧ href ≠ "" ∧ strStarts href "#" = false ∧
          u = pyUrljoin base href) := by
  constructor
  · intro hu
    rw [blogSelectorPhase] at hu
    rcases (foldl_blogStep_mem base doc u blog_selectors []).mp hu with h | ⟨s, hs, hmem⟩
    · exact absurd h (by simp)
    · rcases List.mem_filterMap.mp hmem with ⟨n, hn, hsome⟩
      rcases linkOfAnchor_eq_some hsome with ⟨href, h1, h2, h3, h4, h5⟩
      exact ⟨s, hs, n, hn, href, h1, h2, h3, h4, h5⟩
  · intro hu
    rw [find_pagination_links] at hu
    rcases (foldl_paginationStep_mem base doc u pagination_selectors []).mp
        (List.mem_dedup.mp hu) with h | ⟨s, hs, hmem⟩
    · exact absurd h (by simp)
    · rcases List.mem_filterMap.mp hmem with ⟨n, hn, hsome⟩
      rcases paginationLinkOfAnchor_eq_some hsome with ⟨href, h1, h2, h3, h4⟩
      exact ⟨s, hs, n, hn, href, h1, h2, h3, h4⟩

/-- Witness for the amended C2, at a concrete page and link. -/
theorem claim2_witness :
    ∃ s, s ∈ blog_selectors ∧ ∃ n, n ∈ fxArticleDoc.select s ∧ ∃ href,
      nodeAttr n "href" = some href ∧ href ≠ "" ∧ strStarts href "#" = false ∧
        strStarts href "javascript:" = false ∧
        "https://e.com/blog/a" = pyUrljoin "https://e.com/" href :=
  (claim2_prefix_checks "https://e.com/" fxArticleDoc "https://e.com/blog/a").1 (by decide)

/-! ### Lemmas about the frontier and post loops -/

/-- Counting invariant of the frontier loop: starting from counter c, at
most max_pages - c fetches are attempted, and the final counter is the
starting counter plus the number of attempts. -/
lemma scrapeLoop_count_aux (fetch : String → Option String) (parse : String → Doc)
    (base : String) (max_pages : Nat) :
    ∀ (n : Nat) (blog pag : List String) (c : Nat), max_pages - c ≤ n →
      ((scrapeLoop fetch parse base max_pages blog pag c).2.2).length ≤ max_pages - c ∧
      (scrapeLoop fetch parse base max_pages blog pag c).2.1 =
        c + ((scrapeLoop fetch parse base max_pages blog pag c).2.2).length := by
  intro n
  induction n with
  | zero =>
    intro blog pag c hc
    cases pag with
    | nil => rw [scrapeLoop]; simp
    | cons next rest =>
      have hnot : ¬ c < max_pages := by omega
      rw [scrapeLoop]
      simp [dif_neg hnot]
  | succ n ih =>
    intro blog pag c hc
    cases pag with
    | nil => rw [scrapeLoop]; simp
    | cons next rest =>
      by_cases h : c < max_pages
      · rw [scrapeLoop]
        simp only [dif_pos h, List.length_cons]
        cases ht : truthyHtml (fetch next) with
        | none =>
          simp only [ht]
          obtain ⟨ih1, ih2⟩ := ih blog rest (c + 1) (by omega)
          exact ⟨by omega, by omega⟩
        | some page_html =>
          simp only [ht]
          obtain ⟨ih1, ih2⟩ := ih (blog ++ find_blog_links base (parse page_html))
            (rest ++ (find_pagination_links base (parse page_html)).filter
              (fun l => decide (l ∉ rest)))
            (c + 1) (by omega)
          exact ⟨by omega, by omega⟩
      · rw [scrapeLoop]
        simp [dif_neg h]

/-- Counting invariant instantiated at the actual fuel. -/
lemma scrapeLoop_count (fetch : String → Option String) (parse : String → Doc)
    (base : String) (max_pages : Nat) (blog pag : List String) (c : Nat) :
    ((scrapeLoop fetch parse base max_pages blog pag c).2.2).length ≤ max_pages - c ∧
    (scrapeLoop fetch parse base max_pages blog pag c).2.1 =
      c + ((scrapeLoop fetch parse base max_pages blog pag c).2.2).length :=
  scrapeLoop_count_aux fetch parse base max_pages (max_pages - c) blog pag c (Nat.le_refl _)

/-- The loops look at a fetched page only through the truthiness filter:
two fetchers agreeing after the filter drive the frontier loop to the same
result. -/
lemma scrapeLoop_congr_aux (f g : String → Option String) (parse : String → Doc)
    (base : String) (max_pages : Nat)
    (hfg : ∀ u, truthyHtml (f u) = truthyHtml (g u)) :
    ∀ (n : Nat) (blog pag : List String) (c : Nat), max_pages - c ≤ n →
      scrapeLoop f parse base max_pages blog pag c =
        scrapeLoop g parse base max_pages blog pag c := by
  intro n
  induction n with
  | zero =>
    intro blog pag c hc
    cases pag with
    | nil => rw [scrapeLoop, scrapeLoop]
    | cons next rest =>
      have hnot : ¬ c < max_pages := by omega
      rw [scrapeLoop, scrapeLoop]
      simp only [dif_neg hnot]
  | succ n ih =>
    intro blog pag c hc
    cases pag with
    | nil => rw [scrapeLoop, scrapeLoop]
    | cons next rest =>
      by_cases h : c < max_pages
      · rw [scrapeLoop, scrapeLoop]
        simp only [dif_pos h]
        rw [← hfg next]
        cases ht : truthyHtml (f next) with
        | none =>
          simp only [ht]
          rw [ih blog rest (c + 1) (by omega)]
        | some page_html =>
          simp only [ht]
          rw [ih (blog ++ find_blog_links base (parse page_html))
            (rest ++ (find_pagination_links base (parse page_html)).filter
              (fun l => decide (l ∉ rest)))
            (c + 1) (by omega)]
      · rw [scrapeLoop, scrapeLoop]
        simp only [dif_neg h]

/-- The loops look at a fetched page only through the truthiness filter:
two fetchers agreeing after the filter drive the frontier loop to the same
result. -/
lemma scrapeLoop_congr (f g : String → Option String) (parse : String → Doc)
    (base : String) (max_pages : Nat)
    (hfg : ∀ u, truthyHtml (f u) = truthyHtml (g u))
    (blog pag : List String) (c : Nat) :
    scrapeLoop f parse base max_pages blog pag c =
      scrapeLoop g parse base max_pages blog pag c :=
  scrapeLoop_congr_aux f g parse base max_pages hfg (max_pages - c) blog pag c (Nat.le_refl _)

/-- Two fetchers agreeing after the truthiness filter drive the post loop to
the same result. -/
lemma postLoop_congr (f g : String → Option String) (parse : String → Doc)
    (hfg : ∀ u, truthyHtml (f u) = truthyHtml (g u)) :
    ∀ (links scraped : List String),
      postLoop f parse scraped links = postLoop g parse scraped links := by
  intro links
  induction links with
  | nil => intro scraped; rfl
  | cons link rest ih =>
    intro scraped
    rw [postLoop, postLoop]
    by_cases hmem : link ∈ scraped
    · rw [if_pos hmem, if_pos hmem, ih]
    · rw [if_neg hmem, if_neg hmem, ← hfg link]
      cases ht : truthyHtml (f link) with
      | none => simp only [ht, ih]
      | some page_html => simp only [ht, ih]

/-- The post loop saves exactly one record per fresh link whose fetch is
truthy, in order: a failed or empty fetch skips only that link. -/
lemma postLoop_saved (fetch : String → Option String) (parse : String → Doc) :
    ∀ (links scraped : List String), (∀ l ∈ links, l ∉ scraped) → links.Nodup →
      (postLoop fetch parse scraped links).1 = links.filterMap (fun l =>
        (truthyHtml (fetch l)).map (fun h => extract_blog_content (parse h) l)) := by
  intro links
  induction links with
  | nil => intro scraped _ _; rfl
  | cons link rest ih =>
    intro scraped hnotin hnd
    have hlink : link ∉ scraped := hnotin link (List.mem_cons_self _ _)
    rw [postLoop, if_neg hlink]
    rw [List.filterMap_cons]
    cases ht : truthyHtml (fetch link) with
    | none =>
      simp only [ht, Option.map_none']
      exact ih scraped (fun l hl => hnotin l (List.mem_cons_of_mem _ hl)) hnd.of_cons
    | some page_html =>
      simp only [ht, Option.map_some']
      have hrest : (postLoop fetch parse (link :: scraped) rest).1 =
          rest.filterMap (fun l =>
            (truthyHtml (fetch l)).map (fun h => extract_blog_content (parse h) l)) := by
        apply ih
        · intro l hl
          simp only [List.mem_cons, not_or]
          exact ⟨fun he => (List.nodup_cons.mp hnd).1 (he ▸ hl),
            hnotin l (List.mem_cons_of_mem _ hl)⟩
        · exact hnd.of_cons
      simp [hrest]

/-- The post loop saves at most one record per link. -/
lemma postLoop_length_le (fetch : String → Option String) (parse : String → Doc) :
    ∀ (links scraped : List String),
      (postLoop fetch parse scraped links).1.length ≤ links.length := by
  intro links
  induction links with
  | nil => intro scraped; simp [postLoop]
  | cons link rest ih =>
    intro scraped
    rw [postLoop]
    by_cases hmem : link ∈ scraped
    · rw [if_pos hmem]
      exact le_trans (ih scraped) (by simp)
    · rw [if_neg hmem]
      cases ht : truthyHtml (fetch link) with
      | none =>
        simp only [ht]
        exact le_trans (ih scraped) (by simp)
      | some page_html =>
        simp only [ht, List.length_cons]
        exact Nat.succ_le_succ (ih (link :: scraped))

/-- The truthiness filter is idempotent. -/
lemma truthyHtml_idem (x : Option String) : truthyHtml (truthyHtml x) = truthyHtml x := by
  cases x with
  | none => rfl
  | some s =>
    by_cases h : s = ""
    · simp [truthyHtml, h]
    · simp [truthyHtml, h]

/-! ### Claim C3 -/

/-- Claim C3: for every fetcher, parser and starting link sets, the frontier
loop of scrape (entered with the counter at 1) attempts at most max_pages
pagination fetches — it always terminates, being a total function — and the
visited-page counter is incremented exactly once per attempted page, whether
or not the fetch succeeded: the final counter is 1 plus the number of
attempts. -/
theorem claim3_frontier_bounded (fetch : String → Option String) (parse : String → Doc)
    (base : String) (max_pages : Nat) (blog pag : List String) :
    ((scrapeLoop fetch parse base max_pages blog pag 1).2.2).length ≤ max_pages ∧
    (scrapeLoop fetch parse base max_pages blog pag 1).2.1 =
      1 + ((scrapeLoop fetch parse base max_pages blog pag 1).2.2).length := by
  obtain ⟨h1, h2⟩ := scrapeLoop_count fetch parse base max_pages blog pag 1
  exact ⟨le_trans h1 (Nat.sub_le _ _), h2⟩

/-! ### Claim C9 -/

/-- Claim C9: the seed page counts toward the page limit — the frontier loop
starts with the counter at 1, so with max_pages at most 1 no pagination page
is ever fetched even when pagination links exist, and in general at most
max_pages - 1 pagination fetches are attempted. -/
theorem claim9_seed_counts_toward_limit (fetch : String → Option String)
    (parse : String → Doc) (base : String) (max_pages : Nat) (blog pag : List String) :
    (max_pages ≤ 1 → (scrapeLoop fetch parse base max_pages blog pag 1).2.2 = []) ∧
    ((scrapeLoop fetch parse base max_pages blog pag 1).2.2).length ≤ max_pages - 1 := by
  obtain ⟨h1, _⟩ := scrapeLoop_count fetch parse base max_pages blog pag 1
  refine ⟨fun hm => ?_, h1⟩
  have : ((scrapeLoop fetch parse base max_pages blog pag 1).2.2).length = 0 := by omega
  exact List.length_eq_zero.mp this

/-- Witness for C9: with max_pages = 1 and a pagination link discovered on
the seed page, zero pagination fetches are attempted. -/
theorem claim9_witness :
    (scrapeLoop (fun _ => some "<html>") (fun _ => fxNoLinkDoc) "https://e.com/" 1
      [] ["https://e.com/page/2"] 1).2.2 = [] :=
  (claim9_seed_counts_toward_limit (fun _ => some "<html>") (fun _ => fxNoLinkDoc)
    "https://e.com/" 1 [] ["https://e.com/page/2"]).1 (Nat.le_refl 1)

/-! ### Claim C6 -/

/-- Claim C6: a transport failure on the seed page aborts the run at once —
the only fetch attempted is the seed and nothing is saved — while a failure
on any non-seed page never aborts: the post loop saves exactly the records
of the links whose fetch was truthy, skipping failures and continuing. -/
theorem claim6_seed_failure_aborts (fetch : String → Option String) (parse : String → Doc)
    (base : String) (max_posts max_pages : Nat) :
    (fetch base = none →
      scrape fetch parse base max_posts max_pages = ⟨[], [base]⟩) ∧
    (∀ links : List String, links.Nodup →
      (postLoop fetch parse [] links).1 = links.filterMap (fun l =>
        (truthyHtml (fetch l)).map (fun h => extract_blog_content (parse h) l))) := by
  constructor
  · intro h
    simp [scrape, h, truthyHtml]
  · intro links hnd
    exact postLoop_saved fetch parse links [] (by simp) hnd

/-- Witness for C6: a run whose seed fetch fails attempts only the seed and
saves nothing; a post loop over one failing link saves nothing but runs to
completion. -/
theorem claim6_witness :
    scrape (fun _ => none) (fun _ => fxNoLinkDoc) "https://e.com/blog" 50 5 =
      ⟨[], ["https://e.com/blog"]⟩ ∧
    (postLoop (fun _ => none) (fun _ => fxNoLinkDoc) [] ["https://e.com/blog/a"]).1 = [] := by
  constructor
  · exact (claim6_seed_failure_aborts (fun _ => none) (fun _ => fxNoLinkDoc)
      "https://e.com/blog" 50 5).1 rfl
  · have h := (claim6_seed_failure_aborts (fun _ => none) (fun _ => fxNoLinkDoc)
      "https://e.com/blog" 50 5).2 ["https://e.com/blog/a"] (by simp)
    simpa [truthyHtml] using h

/-! ### Claim C7 -/

/-- Claim C7: the post-URL list handed to extraction is duplicate-free, has
at most max_posts entries, and only contains links accumulated during the
frontier phase; consequently a run persists at most max_posts records. -/
theorem claim7_post_list_capped (links : List String) (max_posts : Nat) :
    (selectPosts links max_posts).Nodup ∧
    (selectPosts links max_posts).length ≤ max_posts ∧
    (∀ x, x ∈ selectPosts links max_posts → x ∈ links) ∧
    (∀ (fetch : String → Option String) (parse : String → Doc) (base : String)
      (max_pages : Nat),
      (scrape fetch parse base max_posts max_pages).saved.length ≤ max_posts) := by
  refine ⟨?_, ?_, ?_, ?_⟩
  · exact List.Nodup.sublist (List.take_sublist _ _) (List.nodup_dedup links)
  · rw [selectPosts, List.length_take]
    exact inf_le_left
  · intro x hx
    exact List.mem_dedup.mp (List.mem_of_mem_take hx)
  · intro fetch parse base max_pages
    rw [scrape]
    cases ht : truthyHtml (fetch base) with
    | none => simp
    | some html =>
      simp only
      refine le_trans (postLoop_length_le fetch parse _ []) ?_
      rw [selectPosts, List.length_take]
      exact inf_le_left

/-- Witness for C7: on a concrete accumulated list, truncation is
duplicate-free and its members come from the accumulated links. -/
theorem claim7_witness :
    (selectPosts ["https://e.com/blog/a", "https://e.com/blog/a", "https://e.com/blog/b"]
      2).Nodup ∧
    "https://e.com/blog/a" ∈
      ["https://e.com/blog/a", "https://e.com/blog/a", "https://e.com/blog/b"] :=
  ⟨(claim7_post_list_capped _ 2).1,
    (claim7_post_list_capped ["https://e.com/blog/a", "https://e.com/blog/a",
      "https://e.com/blog/b"] 2).2.2.1 "https://e.com/blog/a" (by decide)⟩

/-! ### Claim C10 -/

/-- Claim C10: an HTTP-successful response with an empty body is treated
exactly like a transport failure — replacing every empty-body response of
the fetcher by a failure changes nothing in the outcome of scrape (so an
empty pagination or post page is skipped), and an empty seed page aborts
the run with nothing saved. -/
theorem claim10_empty_body_is_failure (fetch : String → Option String)
    (parse : String → Doc) (base : String) (max_posts max_pages : Nat) :
    scrape fetch parse base max_posts max_pages =
      scrape (fun u => truthyHtml (fetch u)) parse base max_posts max_pages ∧
    (fetch base = some "" →
      scrape fetch parse base max_posts max_pages = ⟨[], [base]⟩) := by
  have hfg : ∀ u, truthyHtml (fetch u) = truthyHtml ((fun u => truthyHtml (fetch u)) u) :=
    fun u => (truthyHtml_idem (fetch u)).symm
  constructor
  · rw [scrape, scrape]
    rw [← hfg base]
    cases ht : truthyHtml (fetch base) with
    | none => rfl
    | some html =>
      simp only
      rw [← scrapeLoop_congr fetch _ parse base max_pages hfg,
        ← postLoop_congr fetch _ parse hfg]
  · intro h
    simp [scrape, h, truthyHtml]

/-- Witness for C10: an empty-body seed response aborts the run. -/
theorem claim10_witness :
    scrape (fun _ => some "") (fun _ => fxNoLinkDoc) "https://e.com/" 5 5 =
      ⟨[], ["https://e.com/"]⟩ :=
  (claim10_empty_body_is_failure (fun _ => some "") (fun _ => fxNoLinkDoc)
    "https://e.com/" 5 5).2 rfl

/-! ### Claim C4 -/

/-- Claim C4: on the scenario page, whatever the script text, the record has
the h1 title, the date read from the content attribute of the meta tag, and
a content equal to the two paragraph texts concatenated and trimmed, with no
script text present (the result does not depend on the script text at
all). -/
theorem claim4_end_to_end_extraction (scr : String) :
    extract_blog_content (fxPostDoc scr) "https://e.com/blog/a" =
      { url := "https://e.com/blog/a", title := "Title", date := "2024-01-01",
        author := "", content := "First paragraph.Second paragraph.",
        raw_html := "<div class=\"entry-content\"><p>First paragraph.</p><p>Second paragraph.</p></div>",
        categories := [] } := by
  rfl

/-! ### Claim C5 -/

lemma selectMany_split (doc : Doc) :
    ∀ (pre : List String) (sel : String) (post : List String),
      (∀ s ∈ pre, doc.select s = []) → doc.select sel ≠ [] →
      selectMany doc (pre ++ sel :: post) = some (doc.select sel) := by
  intro pre
  induction pre with
  | nil =>
    intro sel post _ hsel
    rw [List.nil_append, selectMany]
    simp [List.isEmpty_iff, hsel]
  | cons a pre ih =>
    intro sel post hpre hsel
    rw [List.cons_append, selectMany]
    have ha : doc.select a = [] := hpre a (List.mem_cons_self _ _)
    simp only [ha, List.isEmpty_nil, if_true]
    exact ih sel post (fun s hs => hpre s (List.mem_cons_of_mem _ hs)) hsel

lemma extract_categories_eq (doc : Doc) (url : String) :
    (extract_blog_content doc url).categories =
      (match selectMany doc category_selectors with
        | some elems => elems.map (fun cat => pyStrip (getTextNode cat))
        | none => []) := rfl

/-- Claim C5: the categories field is the ordered list of the trimmed texts
of every element matched by the first category selector that matches at
least one element (earlier selectors having matched nothing), in the order
the document yields them; in particular three matched elements give a
three-element list. -/
theorem claim5_categories_full_list (doc : Doc) (url : String)
    (pre post : List String) (sel : String)
    (hsplit : category_selectors = pre ++ sel :: post)
    (hpre : ∀ s ∈ pre, doc.select s = [])
    (hsel : doc.select sel ≠ []) :
    (extract_blog_content doc url).categories =
      (doc.select sel).map (fun cat => pyStrip (getTextNode cat)) ∧
    ((doc.select sel).length = 3 → (extract_blog_content doc url).categories.length = 3) := by
  have hmany : selectMany doc category_selectors = some (doc.select sel) := by
    rw [hsplit]
    exact selectMany_split doc pre sel post hpre hsel
  have hcat : (extract_blog_content doc url).categories =
      (doc.select sel).map (fun cat => pyStrip (getTextNode cat)) := by
    rw [extract_categories_eq, hmany]
  refine ⟨hcat, fun h3 => ?_⟩
  rw [hcat, List.length_map, h3]

/-- Witness for C5 on a concrete page with three matched category
elements. -/
theorem claim5_witness :
    (extract_blog_content fxTagsDoc "https://e.com/p").categories =
      ["alpha", "beta", "gamma"] ∧
    (extract_blog_content fxTagsDoc "https://e.com/p").categories.length = 3 := by
  have h := claim5_categories_full_list fxTagsDoc "https://e.com/p"
    [".category", ".categories"]
    [".post-tags", ".entry-tags", ".post-categories", "a[rel=\x27category\x27]"]
    ".tags" rfl
    (by intro s hs; fin_cases hs <;> rfl)
    (by simp [fxTagsDoc])
  exact ⟨h.1.trans (by rfl), h.2 (by rfl)⟩

/-! ### Claim C8 -/

/-- Counterexample to C8 as stated: for an empty title and a URL ending in
a slash, the final path segment is empty, and save_post substitutes the
fixed base "post" — a step the claim does not mention — so the produced
filename differs from the claimed derivation. -/
theorem claim8_counterexample :
    save_filename "" "https://e.com/blog/" = "post.json" ∧
    spec_filename "" "https://e.com/blog/" = ".json" ∧
    save_filename "" "https://e.com/blog/" ≠ spec_filename "" "https://e.com/blog/" := by
  decide

/-- Claim C8 amended: the filename is derived exactly as claimed — title (or
final URL path segment when the title is empty) with every character outside
the alphanumeric/hyphen/underscore class replaced by an underscore,
truncated to 50 characters, plus ".json" — except that when the title is
empty and the normalized final segment is the empty string, the fixed base
"post" is used instead. -/
theorem claim8_filename_derivation (title url : String) :
    save_filename title url =
      (if title = "" ∧ subNonWord (lastUrlSegment url) = "" then "post.json"
       else spec_filename title url) := by
  by_cases ht : title = ""
  · by_cases hseg : subNonWord (lastUrlSegment url) = ""
    · simp only [save_filename, spec_filename, ht, hseg, if_true, if_pos (And.intro rfl hseg)]
      rfl
    · simp [save_filename, spec_filename, ht, hseg]
  · simp [save_filename, spec_filename, ht]

